import Mathlib

/-!
Verification development for the RCubic execution-tree engine
(`RCubic/exectree.py`).  The Python classes `ExecJob`, `ExecIter`,
`ExecResource`, `ExecDependency` and `ExecTree` are embedded shallowly:
pure attribute logic becomes Lean functions on records, the gevent
cooperative-concurrency parts become an explicit small-step transition
system, and fallible constructors return `Except`.  Machine integers in
the source are Python ints, so they are modelled by `Int`/`Nat` directly
(no overflow).
-/

/--
Job states, `ExecJob.STATES = (0..7)` with the names
`STATE_IDLE, STATE_RUNNING, STATE_SUCCESSFULL, STATE_FAILED,
STATE_CANCELLED, STATE_UNDEF, STATE_RESET, STATE_BLOCKED`.
-/
inductive JState where
  | IDLE
  | RUNNING
  | SUCCESSFULL
  | FAILED
  | CANCELLED
  | UNDEF
  | RESET
  | BLOCKED
  deriving DecidableEq, Repr

/-- Integer code of a state as used by the Python tuple `ExecJob.STATES`. -/
def JState.code : JState → Int
  | .IDLE => 0
  | .RUNNING => 1
  | .SUCCESSFULL => 2
  | .FAILED => 3
  | .CANCELLED => 4
  | .UNDEF => 5
  | .RESET => 6
  | .BLOCKED => 7

/-- `ExecJob.DONE_STATES`. -/
def DONE_STATES : List JState := [.SUCCESSFULL, .FAILED, .CANCELLED, .UNDEF]

/-- `ExecJob.SUCCESS_STATES`. -/
def SUCCESS_STATES : List JState := [.SUCCESSFULL, .UNDEF]

/-- `ExecJob.DEPENDENCY_STATES`. -/
def DEPENDENCY_STATES : List JState := [.SUCCESSFULL, .FAILED]

/--
The mutable per-job data touched by the claims: the current state, the
`statechange` event flag, the per-state one-shot event flags
(`self.events`, a dict from state to `gevent.event.Event`, modelled as
`JState → Bool` where `true` means the event has been set), and the
`_progress` attribute.
-/
structure ExecJob where
  state : JState
  statechange : Bool
  events : JState → Bool

  progress : Int

/-- Event `set`: the one-shot flag for `e` becomes true, others unchanged. -/
def setEv (f : JState → Bool) (e : JState) : JState → Bool :=
  fun x => if x = e then true else f x

/--
The `state` property setter of `ExecJob`: when the value differs from the
current state it stores the value, sets the `statechange` event and sets
the destination state's one-shot event.  (The `UnknownStateError` branch
for an integer outside `STATES` is unreachable here because `JState` only
has the eight valid states.)
-/
def ExecJob.setState (j : ExecJob) (v : JState) : ExecJob :=
  if j.state = v then j
  else { j with state := v, statechange := true, events := setEv j.events v }

/--
The `progress` property setter of `ExecJob`: the assignment is stored only
when `0 <= value <= 100`, otherwise it is silently ignored.
-/
def ExecJob.setProgress (j : ExecJob) (v : Int) : ExecJob :=
  if 0 ≤ v ∧ v ≤ 100 then { j with progress := v } else j

/-- Apply a sequence of `progress` assignments in order. -/
def applyProgressList (j : ExecJob) (vs : List Int) : ExecJob :=
  vs.foldl ExecJob.setProgress j

/--
`ExecJob.cancel`: running jobs cannot be cancelled (returns `False`),
done jobs are a no-op (returns `True`), otherwise the state is set to
`STATE_CANCELLED` and `True` is returned.
-/
def ExecJob.cancel (j : ExecJob) : Bool × ExecJob :=
  if j.state = .RUNNING then (false, j)
  else if j.state ∈ DONE_STATES then (true, j)
  else (true, j.setState .CANCELLED)

/--
`ExecJob.reset`: a no-op on `STATE_UNDEF` jobs; otherwise clears every
per-state event, clamps a positive `progress` to `0` (through the
`progress` setter) and moves the state to `STATE_RESET` (through the
`state` setter).
-/
def ExecJob.reset (j : ExecJob) : ExecJob :=
  if j.state = .UNDEF then j
  else
    let j2 : ExecJob := { j with events := fun _ => false }
    let j3 : ExecJob := if 0 < j2.progress then j2.setProgress 0 else j2
    j3.setState .RESET

/--
A freshly constructed `ExecJob`: `__init__` creates all events unset,
sets `_state = None` and then assigns `self.state = STATE_IDLE` through
the setter, which fires `statechange` and the `IDLE` event; `_progress`
starts at `-1`.
-/
def initJob : ExecJob :=
  { state := .IDLE, statechange := true,
    events := setEv (fun _ => false) .IDLE, progress := -1 }

/-- The `ExecIter` class: an ordered argument list and a cursor `run`. -/
structure ExecIter where
  args : List String
  run : Nat
  deriving DecidableEq, Repr

/-- `ExecIter.is_exhausted`: true when `run >= len(args)`. -/
def ExecIter.isExhausted (it : ExecIter) : Bool :=
  it.args.length ≤ it.run

/--
`ExecIter.increment(inc)`: advances the cursor by `inc` and reports
whether the new cursor is still below `len(args)`.
-/
def ExecIter.increment (it : ExecIter) (inc : Nat) : Bool × ExecIter :=
  let it2 : ExecIter := { it with run := it.run + inc }
  (decide (it2.run < it2.args.length), it2)

/--
The `ExecIter.argument` property.  Python semantics per branch:
empty `args` gives `""`; `run > len(args)` gives `args[-1]` (the last
element); otherwise `args[self.run]`, which raises `IndexError` when
`run == len(args)`.  The `IndexError` outcome is modelled as `none`.
-/
def ExecIter.argument (it : ExecIter) : Option String :=
  if it.args.length ≤ 0 then some ""
  else if it.args.length < it.run then it.args.getLast?
  else it.args.get? it.run

/--
The `ExecResource` class fields used by reserve/release: `avail` is the
capacity (negative means unbounded), `used` the in-use counter, `event`
the waiter-wakeup flag and `reserve_timeout` the blocking bound.  Both
counters are Python ints, modelled as `Int`.
-/
structure ExecResource where
  name : String
  avail : Int
  used : Int
  event : Bool
  reserveTimeout : Int

/--
`ExecResource.reserve` (blocking variant, the one used by
`_acquire_resources`): unbounded capacity always succeeds without
touching `used`; `used < avail` increments and succeeds.  Otherwise the
source blocks in `while self.used >= self.avail: self.event.wait(1)` up
to `reserve_timeout` seconds; because gevent is cooperative, the guarded
`self.used += 1` after the loop can only run when a release has brought
`used` below `avail`, i.e. as a later `reserve` step of this model, so a
reserve step taken while `used >= avail >= 0` is the timeout outcome and
returns `False` with the counter untouched.
-/
def ExecResource.reserve (r : ExecResource) : Bool × ExecResource :=
  if r.avail < 0 then (true, r)
  else if r.used < r.avail then (true, { r with used := r.used + 1 })
  else (false, r)

/--
`ExecResource.release`: when `avail >= 0`, decrements `used` clamping at
`0` and sets the wakeup event; a no-op for unbounded resources.
-/
def ExecResource.release (r : ExecResource) : ExecResource :=
  if 0 ≤ r.avail then { r with used := max 0 (r.used - 1), event := true }
  else r

/-- One operation of a reserve/release call sequence against a resource. -/
inductive ROp where
  | reserve
  | release
  deriving DecidableEq, Repr

/-- Apply one call to the resource, discarding the boolean result. -/
def ExecResource.applyOp (r : ExecResource) (op : ROp) : ExecResource :=
  match op with
  | .reserve => r.reserve.2
  | .release => r.release

/-- Apply a whole call sequence in order. -/
def applyOps (r : ExecResource) (ops : List ROp) : ExecResource :=
  ops.foldl ExecResource.applyOp r

/--
The `ExecTree` fields touched by `advance()`: the tree-done broadcast
flag `done_event`, the `cancelled` flag, the optional iterator and the
job list.
-/
structure ATree where
  done_event : Bool
  cancelled : Bool
  iterator : Option ExecIter
  jobs : List ExecJob

/--
`ExecTree.advance`: clears the done event, clears `cancelled`, and when
an iterator is present calls `iterator.increment()`; every job is
`reset()` only when `inc` is true, i.e. when there is no iterator or the
incremented cursor is still below `len(args)`.
-/
def ATree.advance (t : ATree) : ATree :=
  let t1 : ATree := { t with done_event := false, cancelled := false }
  match t1.iterator with
  | some it =>
    let r := it.increment 1
    let t2 : ATree := { t1 with iterator := some r.2 }
    if r.1 then { t2 with jobs := t2.jobs.map ExecJob.reset } else t2
  | none => { t1 with jobs := t1.jobs.map ExecJob.reset }

/-- Concrete job used for claim C6: a finished (SUCCESSFULL) job. -/
def c6job : ExecJob :=
  { state := .SUCCESSFULL, statechange := true,
    events := setEv (fun _ => false) .SUCCESSFULL, progress := 50 }

/--
Concrete tree used for claim C6: one-element iterator at cursor 0, so the
increment inside `advance` exhausts the iterator.
-/
def c6tree : ATree :=
  { done_event := true, cancelled := true,
    iterator := some { args := ["x"], run := 0 }, jobs := [c6job] }

/-- Integer codes accepted by the Python tuple `ExecJob.STATES`. -/
def pySTATES : List Int := [0, 1, 2, 3, 4, 5, 6, 7]

/--
The `ExecDependency` object at the Python level: job references, the
required-state integer and the edge colors set by `__init__`.
-/
structure PyDependency where
  parent : String
  child : String
  state : Int
  dcolor : String
  ucolor : String
  deriving DecidableEq, Repr

/--
`ExecDependency.__init__(parent, child, state)`: stores the default color
map and accepts any `state in ExecJob.STATES` (all eight states), raising
`UnknownStateError` otherwise.
-/
def mkExecDependency (parent child : String) (state : Int) :
    Except String PyDependency :=
  if state ∈ pySTATES then
    Except.ok { parent := parent, child := child, state := state,
                dcolor := "deepskyblue", ucolor := "palegreen" }
  else Except.error "UnknownStateError"

/-- Whether a fallible constructor call succeeded. -/
def exceptOk {e a : Type} : Except e a → Bool
  | .ok _ => true
  | .error _ => false

/--
Reserve the resource at index `i` of the shared pool (a job's
`self.resources` holds references into the tree's resource pool, modelled
as positions in a list).
-/
def reserveAt (pool : List ExecResource) (i : Nat) : Bool × List ExecResource :=
  match pool.get? i with
  | some r =>
    let q := r.reserve
    (q.1, pool.set i q.2)
  | none => (false, pool)

/-- Release the resource at index `i` of the pool. -/
def releaseAt (pool : List ExecResource) (i : Nat) : List ExecResource :=
  match pool.get? i with
  | some r => pool.set i r.release
  | none => pool

/-- `ExecJob._release_resources(resources)`: release every entry in order. -/
def releaseAll (pool : List ExecResource) (idxs : List Nat) : List ExecResource :=
  idxs.foldl releaseAt pool

/--
The inner `for resource in self.resources` loop of
`ExecJob._acquire_resources`: reserve each resource in declared order,
appending each success to `reserved`; stop at the first failure.  The
accumulator `reserved` is the one of the enclosing attempt loop — the
source never clears it between attempts.
-/
def tryAll (pool : List ExecResource) (idxs : List Nat) (reserved : List Nat) :
    Bool × List Nat × List ExecResource :=
  match idxs with
  | [] => (true, reserved, pool)
  | i :: rest =>
    let q := reserveAt pool i
    if q.1 then tryAll q.2 rest (reserved ++ [i]) else (false, reserved, q.2)

/--
The `while True` attempt loop of `ExecJob._acquire_resources` for
`max_attempts > 0`, with the fuel counting the remaining allowed failed
attempts (`attempt` reaching `max_attempts` breaks the loop).  On a
failed attempt everything in `reserved` is released — including the
stale entries accumulated from earlier attempts — and the loop retries
with the same, uncleared `reserved` list.  The randomized backoff sleep
and the BLOCKED/IDLE state flips do not touch the counters and are
omitted.
-/
def acquireGo (idxs : List Nat) :
    Nat → List Nat → List ExecResource → Bool × List ExecResource
  | 0, _, pool => (false, pool)
  | fuel + 1, reserved, pool =>
    let q := tryAll pool idxs reserved
    if q.1 then (true, q.2.2)
    else
      let pool2 := releaseAll q.2.2 q.2.1
      if fuel = 0 then (false, pool2)
      else acquireGo idxs fuel q.2.1 pool2

/--
`ExecJob._acquire_resources(max_attempts)`: immediately true for a job
with no resources, otherwise run the attempt loop starting from an empty
`reserved` list.  A `false` result makes `_run` set the job FAILED.
-/
def acquireResources (idxs : List Nat) (pool : List ExecResource)
    (maxAttempts : Nat) : Bool × List ExecResource :=
  if idxs.length < 1 then (true, pool)
  else acquireGo idxs maxAttempts [] pool

/--
Shared pool for claim C2: R1 has capacity 2 with one unit held by some
other job; R2 has capacity 1 and is fully in use, so reserving it times
out.
-/
def c2pool : List ExecResource :=
  [ { name := "R1", avail := 2, used := 1, event := false, reserveTimeout := 60 },
    { name := "R2", avail := 1, used := 1, event := false, reserveTimeout := 60 } ]

/--
Validation error messages produced by `ExecTree.validate` and
`ExecJob.validate`, one constructor per format string.
-/
inductive VError where
  | emptyTree (tree : String)
  | multipleStems (tree : String) (stems : List String)
  | hasCycles (tree : String)
  | notConnected (jobs : List String) (stem : String)
  | fileMissing (path : String) (job : String)
  | notExecutable (path : String) (job : String)
  | neitherSet (job : String)
  | iterNeedsArg
  deriving DecidableEq, Repr

/-- Discriminator for the "has cycles" error. -/
def VError.isHasCycles : VError → Bool
  | .hasCycles _ => true
  | _ => false

/--
A job as seen by the graph-validation code paths: Python compares job
objects by identity, so jobs are referenced by their index in the
tree's job list.  Jobs delegating to a subtree are not modelled (the
graph claims concern command jobs only).
-/
structure GJob where
  name : String
  state : JState
  jobpath : Option String
  deriving DecidableEq, Repr

/-- A dependency edge between job indices, as stored in `tree.deps`. -/
structure GDep where
  parent : Nat
  child : Nat
  state : JState
  deriving DecidableEq, Repr

/-- The tree structure used by `stems` and `validate`. -/
structure GTree where
  name : String
  jobs : List GJob
  deps : List GDep
  iterator : Option ExecIter
  deriving DecidableEq, Repr

/-- `ExecJob.parents()`: parents derived from the tree's dependency list. -/
def GTree.parentsOf (t : GTree) (j : Nat) : List Nat :=
  (t.deps.filter (fun d => d.child = j)).map GDep.parent

/-- `ExecJob.children()`: children derived from the tree's dependency list. -/
def GTree.childrenOf (t : GTree) (j : Nat) : List Nat :=
  (t.deps.filter (fun d => d.parent = j)).map GDep.child

/-- `ExecJob.is_defined()`: the state is not `STATE_UNDEF`. -/
def GTree.isDefined (t : GTree) (j : Nat) : Bool :=
  match t.jobs.get? j with
  | some jb => decide (jb.state ≠ JState.UNDEF)
  | none => false

/--
`ExecJob.has_defined_anscestors()` (source spelling): an unbounded
recursive OR over the parents, modelled with a fuel bound on the
recursion depth (the Python call stack); `or` short-circuits exactly as
in the source, so on the claims' inputs the fuel is never exhausted.
-/
def GTree.hasDefinedAnscestors (t : GTree) : Nat → Nat → Bool
  | 0, _ => false
  | fuel + 1, j =>
    (t.parentsOf j).any (fun p => t.isDefined p || t.hasDefinedAnscestors fuel p)

/--
`ExecTree.stems()`: the defined jobs without defined ancestors, in job
list order.
-/
def GTree.stems (t : GTree) (fuel : Nat) : List Nat :=
  (List.range t.jobs.length).filter
    (fun j => !(t.hasDefinedAnscestors fuel j) && t.isDefined j)

/-- Human name of a job index, for error messages. -/
def GTree.jobName (t : GTree) (j : Nat) : String :=
  match t.jobs.get? j with
  | some jb => jb.name
  | none => ""

/--
`ExecTree.validate_nocycles(job, visited, parents)`: DFS from `job`
along child edges; returns false on a back-edge (`job in parents`) and
also threads the mutated `visited` list (shared by reference in the
source).  Fuel bounds the recursion depth as for the Python stack.
-/
def GTree.validateNocycles (t : GTree) :
    Nat → Nat → List Nat → List Nat → Bool × List Nat
  | 0, _, visited, _ => (false, visited)
  | fuel + 1, job, visited, parentsPath =>
    if job ∈ parentsPath then (false, visited)
    else
      let pp := parentsPath ++ [job]
      let vis := if job ∈ visited then visited else visited ++ [job]
      (t.childrenOf job).foldl
        (fun acc c => if acc.1 then t.validateNocycles fuel c acc.2 pp else acc)
        (true, vis)

/--
`ExecJob.validate()` for a command job: the no-op path `"-"` is allowed,
otherwise the file must exist (`fsExists`) and be executable (`fsExec`);
a job with neither jobpath nor subtree is an error.
-/
def GJob.validate (g : GJob) (fsExists fsExec : String → Bool) : List VError :=
  match g.jobpath with
  | some p =>
    if p = "-" then []
    else if !(fsExists p) then [.fileMissing p g.name]
    else if !(fsExec p) then [.notExecutable p g.name]
    else []
  | none => [.neitherSet g.name]

/--
`ExecTree.validate()`: stem-count errors first, then for each stem a
cycle check (DFS) and a connectivity check against the visited set, then
the per-job checks, then the iterator non-emptiness check.
-/
def GTree.validate (t : GTree) (fuel : Nat) (fsExists fsExec : String → Bool) :
    List VError :=
  let st := t.stems fuel
  let errs : List VError :=
    if st.length = 0 then [.emptyTree t.name]
    else if st.length > 1 then [.multipleStems t.name (st.map t.jobName)]
    else []
  let errs := errs ++ st.foldl
    (fun acc stem =>
      let q := t.validateNocycles fuel stem [] []
      let acc := acc ++ (if !q.1 then [.hasCycles t.name] else [])
      let unconnected := (List.range t.jobs.length).filter
        (fun j => t.isDefined j && decide (j ∉ q.2))
      acc ++ (if unconnected.length > 0 then
        [.notConnected (unconnected.map t.jobName) (t.jobName stem)]
        else []))
    []
  let errs := errs ++ t.jobs.foldl (fun acc g => acc ++ g.validate fsExists fsExec) []
  errs ++ (match t.iterator with
    | some it => if it.args.length < 1 then [.iterNeedsArg] else []
    | none => [])

/--
Concrete tree for claim C4: two defined command jobs A and B with the
mutual dependencies A → B and B → A.
-/
def c4tree : GTree :=
  { name := "t",
    jobs := [ { name := "A", state := .IDLE, jobpath := some "/bin/a" },
              { name := "B", state := .IDLE, jobpath := some "/bin/b" } ],
    deps := [ { parent := 0, child := 1, state := .SUCCESSFULL },
              { parent := 1, child := 0, state := .SUCCESSFULL } ],
    iterator := none }

/--
A Python attribute value as stored on a parsed object: either an int
(the `-1` default of the resource parser, or an API-supplied capacity)
or the raw attribute string taken from the document.
-/
inductive PyVal where
  | int (i : Int)
  | str (s : String)
  deriving DecidableEq, Repr

/-- Python `str()` of such a value. -/
def PyVal.toStr : PyVal → String
  | .int i => toString i
  | .str s => s

/-- Python `str()` of a bool. -/
def pyStrBool : Bool → String
  | true => "True"
  | false => "False"

/-- An element of the tree document: tag, attributes, child elements. -/
inductive Xml where
  | mk (tag : String) (attrs : List (String × String)) (children : List Xml)

/-- Tag of an element. -/
def Xml.tag : Xml → String
  | .mk t _ _ => t

/-- Attribute list of an element. -/
def Xml.attrs : Xml → List (String × String)
  | .mk _ a _ => a

/-- Child elements. -/
def Xml.children : Xml → List Xml
  | .mk _ _ c => c

/-- `element.attrib.get(key)`. -/
def Xml.attrGet (x : Xml) (k : String) : Option String :=
  match x.attrs.find? (fun p => p.1 == k) with
  | some p => some p.2
  | none => none

/-- `element.findall(tag)`: direct children with the given tag, in order. -/
def Xml.findall (x : Xml) (t : String) : List Xml :=
  x.children.filter (fun c => c.tag == t)

/--
`ExecResource` as the codec sees it.  UUIDs appear in documents as
their hex form and are modelled as opaque hex strings (`uuid.UUID(h).hex`
gives back `h`).
-/
structure RRes where
  uuid : String
  name : String
  avail : PyVal
  deriving DecidableEq, Repr

/-- `ExecJob` as the codec sees it; `subtree` holds the owned subtree's uuid. -/
structure RJob where
  uuid : String
  name : String
  mustcomplete : Bool
  href : String
  tcolor : String
  jobpath : Option String
  subtree : Option String
  logfile : Option String
  arguments : List String
  resources : List String
  deriving DecidableEq, Repr

/-- `ExecDependency` as the codec sees it (job references by uuid hex). -/
structure RDep where
  parent : String
  child : String
  state : Int
  dcolor : String
  ucolor : String
  deriving DecidableEq, Repr

/-- `ExecTree` as the codec sees it. -/
inductive RTree where
  | mk (uuid name href cwd : String) (waitsuccess : Bool)
      (jobs : List RJob) (deps : List RDep) (resources : List RRes)
      (subtrees : List RTree) (legend : List (String × String)) : RTree

/-- Tree uuid. -/
def RTree.uuid : RTree → String
  | .mk u _ _ _ _ _ _ _ _ _ => u

/-- Tree name. -/
def RTree.name : RTree → String
  | .mk _ n _ _ _ _ _ _ _ _ => n

/-- Tree href. -/
def RTree.href : RTree → String
  | .mk _ _ h _ _ _ _ _ _ _ => h

/-- Tree working directory. -/
def RTree.cwd : RTree → String
  | .mk _ _ _ c _ _ _ _ _ _ => c

/-- Tree waitsuccess flag. -/
def RTree.waitsuccess : RTree → Bool
  | .mk _ _ _ _ w _ _ _ _ _ => w

/-- Tree jobs. -/
def RTree.jobs : RTree → List RJob
  | .mk _ _ _ _ _ j _ _ _ _ => j

/-- Tree dependencies. -/
def RTree.deps : RTree → List RDep
  | .mk _ _ _ _ _ _ d _ _ _ => d

/-- Tree resources. -/
def RTree.resources : RTree → List RRes
  | .mk _ _ _ _ _ _ _ r _ _ => r

/-- Tree subtrees. -/
def RTree.subtrees : RTree → List RTree
  | .mk _ _ _ _ _ _ _ _ s _ => s

/-- Tree legend entries. -/
def RTree.legend : RTree → List (String × String)
  | .mk _ _ _ _ _ _ _ _ _ l => l

/-- `ExecResource.xml()`. -/
def RRes.xml (r : RRes) : Xml :=
  .mk "execResource"
    [("name", r.name), ("uuid", r.uuid), ("avail", r.avail.toStr)] []

/--
`ExecJob.xml()`: base attributes, then `jobpath` when set, else
`subtreeuuid` when a subtree is owned, then `logfile` (empty string when
unset); children are the argument elements then the resource references.
-/
def RJob.xml (j : RJob) : Xml :=
  let a1 := [("name", j.name), ("uuid", j.uuid),
             ("mustcomplete", pyStrBool j.mustcomplete), ("href", j.href),
             ("tcolor", j.tcolor)]
  let a2 := match j.jobpath with
    | some p => [("jobpath", p)]
    | none => match j.subtree with
      | some u => [("subtreeuuid", u)]
      | none => []
  let a3 := [("logfile", j.logfile.getD "")]
  .mk "execJob" (a1 ++ a2 ++ a3)
    (j.arguments.map (fun v => Xml.mk "execArg" [("value", v)] []) ++
     j.resources.map (fun u => Xml.mk "execResource" [("uuid", u)] []))

/-- `ExecDependency.xml()`. -/
def RDep.xml (d : RDep) : Xml :=
  .mk "execDependency"
    [("parent", d.parent), ("child", d.child), ("state", toString d.state),
     ("dcolor", d.dcolor), ("ucolor", d.ucolor)] []

/--
`ExecTree.xml()`, with fuel bounding the subtree nesting depth (the
Python call stack).  For each job owning a subtree the subtree element
is emitted just before the job element; then dependencies, resources and
legend items.  A legend pair `(k, v)` becomes an element carrying the
single attribute `k = v` — note this does not match what the legend
parser expects.
-/
def RTree.xml : Nat → RTree → Xml
  | 0, _ => .mk "execTree" [] []
  | fuel + 1, t =>
    .mk "execTree"
      [("version", "1.0"), ("name", t.name), ("href", t.href),
       ("uuid", t.uuid), ("cwd", t.cwd),
       ("waitsuccess", pyStrBool t.waitsuccess)]
      ((t.jobs.foldl (fun acc j =>
          acc ++
          (match j.subtree with
           | some u =>
             match t.subtrees.find? (fun st => st.uuid == u) with
             | some st => [RTree.xml fuel st]
             | none => []
           | none => []) ++ [j.xml]) []) ++
       t.deps.map RDep.xml ++ t.resources.map RRes.xml ++
       t.legend.map (fun kv => Xml.mk "legendItem" [(kv.1, kv.2)] []))

/--
`ExecResource.__init__(tree, xml=...)`: tag check, `name` defaults to
`""`, `uuid` is required, and `avail` is taken verbatim from the
document (a string) with the int `-1` as the absent-attribute default —
the source never converts the attribute to an int.
-/
def parseResource (x : Xml) : Except String RRes :=
  if x.tag ≠ "execResource" then Except.error "XMLError: expect execResource"
  else
    match x.attrGet "uuid" with
    | none => Except.error "KeyError: uuid"
    | some u =>
      Except.ok { uuid := u, name := (x.attrGet "name").getD "",
                  avail := match x.attrGet "avail" with
                           | some v => PyVal.str v
                           | none => PyVal.int (-1) }

/-- `ExecTree.find_resource(needle)`: match on uuid hex or name. -/
def findResource (rs : List RRes) (needle : String) : Option RRes :=
  rs.find? (fun r => r.uuid == needle || r.name == needle)

/--
`ExecJob.__init__(tree, xml=...)`: required `name` and `uuid`,
defaulted `mustcomplete` / `href` / `tcolor` / `logfile`, argument and
resource-reference children (unknown resource uuids are silently
skipped), then the jobpath/subtree fixups: an empty `jobpath` becomes
none; otherwise a present `subtreeuuid` is resolved against the already
parsed subtrees (error when missing), and the subsequent
`self.jobpath = jobpath` property assignment raises `JobError` when both
a subtree and a non-none jobpath are present.
-/
def parseJob (resources : List RRes) (subtrees : List RTree) (x : Xml) :
    Except String RJob :=
  if x.tag ≠ "execJob" then Except.error "XMLError: expect execJob"
  else
    match x.attrGet "name", x.attrGet "uuid" with
    | some nm, some u => do
      let jobpath0 := x.attrGet "jobpath"
      let mustcomplete := match x.attrGet "mustcomplete" with
        | some v => v == "True"
        | none => false
      let subtreeuuid := x.attrGet "subtreeuuid"
      let href := (x.attrGet "href").getD ""
      let tcolor := (x.attrGet "tcolor").getD "lavender"
      let args ← (x.findall "execArg").mapM (fun a =>
        match a.attrGet "value" with
        | some v => Except.ok v
        | none => Except.error "KeyError: value")
      let rrefs ← (x.findall "execResource").mapM (fun rx =>
        match rx.attrGet "uuid" with
        | some ru => Except.ok (findResource resources ru)
        | none => Except.error "KeyError: uuid")
      let rrefs := (rrefs.filterMap id).map RRes.uuid
      let logfile := match x.attrGet "logfile" with
        | some v => if v = "" then none else some v
        | none => none
      if jobpath0 = some "" then
        Except.ok { uuid := u, name := nm, mustcomplete := mustcomplete,
                    href := href, tcolor := tcolor, jobpath := none,
                    subtree := none, logfile := logfile,
                    arguments := args, resources := rrefs }
      else
        match subtreeuuid with
        | some su =>
          match subtrees.find? (fun st => st.uuid == su) with
          | some st =>
            if jobpath0.isSome then
              Except.error "JobError: jobpath cannot be used if subtree is set"
            else
              Except.ok { uuid := u, name := nm, mustcomplete := mustcomplete,
                          href := href, tcolor := tcolor, jobpath := none,
                          subtree := some st.uuid, logfile := logfile,
                          arguments := args, resources := rrefs }
          | none => Except.error "TreeDefinedError: subtree not found"
        | none =>
          Except.ok { uuid := u, name := nm, mustcomplete := mustcomplete,
                      href := href, tcolor := tcolor, jobpath := jobpath0,
                      subtree := none, logfile := logfile,
                      arguments := args, resources := rrefs }
    | _, _ => Except.error "KeyError: name or uuid"

/--
`ExecTree.find_job(needle)` restricted to what `add_dep` needs: the
first job whose name or uuid hex matches, as an index (Python job
identity is modelled by list position).
-/
def findJobIdx (jobs : List RJob) (needle : String) : Option Nat :=
  jobs.findIdx? (fun j => j.name == needle || j.uuid == needle)

/--
`ExecTree.add_dep(xml=...)`: required attributes, integer state,
resolution of parent and child against the tree's jobs
(`JobUndefinedError` when unknown), rejection of self-dependencies,
the `ExecDependency` constructor's state check, and the duplicate-edge
path where `dep` stays `None` so the color assignment raises
`AttributeError`.
-/
def parseDep (jobs : List RJob) (deps : List RDep) (x : Xml) :
    Except String (List RDep) :=
  if x.tag ≠ "execDependency" then Except.error "XMLError: expect execDependency"
  else
    match x.attrGet "parent", x.attrGet "child", x.attrGet "state",
          x.attrGet "ucolor", x.attrGet "dcolor" with
    | some pn, some cn, some stS, some uc, some dc =>
      match stS.toInt? with
      | none => Except.error "ValueError: state"
      | some st =>
        match findJobIdx jobs pn, findJobIdx jobs cn with
        | some pi0, some ci0 =>
          match (jobs.get? pi0), (jobs.get? ci0) with
          | some pj, some cj =>
            if pi0 = ci0 then
              Except.error "DependencyError: child cannot be own parent"
            else if (deps.filter (fun d => d.child == cj.uuid)).any
                (fun d => d.parent == pj.uuid) then
              Except.error "AttributeError: duplicate dependency"
            else if st ∈ pySTATES then
              Except.ok (deps ++ [{ parent := pj.uuid, child := cj.uuid,
                                    state := st, dcolor := dc, ucolor := uc }])
            else Except.error "UnknownStateError"
          | _, _ => Except.error "JobUndefinedError"
        | _, _ => Except.error "JobUndefinedError"
    | _, _, _, _, _ => Except.error "KeyError: dependency attribute"

/--
`ExecTree.__init__(xml)`, fuel bounding the nesting depth: tag and
version gate, attribute reads with their source defaults, then
resources, subtrees, jobs, dependencies and legend items in source
order.  A legend item must carry `name` and `value` attributes or the
constructor raises `KeyError`.
-/
def parseTree : Nat → Xml → Except String RTree
  | 0, _ => Except.error "RecursionError"
  | fuel + 1, x =>
    if x.tag ≠ "execTree" then Except.error "XMLError: expect execTree"
    else
      match x.attrGet "version" with
      | none => Except.error "KeyError: version"
      | some v =>
        if v ≠ "1.0" then Except.error "XMLError: version not supported"
        else
          match x.attrGet "uuid" with
          | none => Except.error "KeyError: uuid"
          | some u => do
            let nm := (x.attrGet "name").getD ""
            let hr := (x.attrGet "href").getD ""
            let cw := (x.attrGet "cwd").getD "/"
            let ws := !((x.attrGet "waitsuccess").getD "False" == "False")
            let resources ← (x.findall "execResource").mapM parseResource
            let subtrees ← (x.findall "execTree").mapM (parseTree fuel)
            let jobs ← (x.findall "execJob").mapM (parseJob resources subtrees)
            let deps ← (x.findall "execDependency").foldlM
              (fun acc d => parseDep jobs acc d) []
            let legend ← (x.findall "legendItem").mapM (fun li =>
              match li.attrGet "name", li.attrGet "value" with
              | some k, some v2 => Except.ok (k, v2)
              | _, _ => Except.error "KeyError: legend item attribute")
            Except.ok (RTree.mk u nm hr cw ws jobs deps resources subtrees legend)

/-- Concrete tree for claim C5: one resource with integer capacity 5. -/
def c5tree : RTree :=
  RTree.mk "aa11" "t" "" "/" false [] []
    [{ uuid := "bb22", name := "res1", avail := PyVal.int 5 }] [] []

/-- The same tree with one legend entry instead of the resource. -/
def c5treeLegend : RTree :=
  RTree.mk "aa11" "t" "" "/" false [] [] [] [] [("k", "v")]

/-- Resources of a parse result, `[]` on error. -/
def parsedResources (e : Except String RTree) : List RRes :=
  match e with
  | .ok t => t.resources
  | .error _ => []

/--
Program counter of a job's `_run` greenlet during a single
`ExecTree.run`: not yet started, waiting on the i-th inbound dependency
inside `_parent_wait`, inside `_acquire_resources`, about to execute
`self.state = STATE_RUNNING`, running the external command, or finished.
-/
inductive Pc where
  | notStarted
  | waiting (i : Nat)
  | acquiring
  | entering
  | running
  | finished
  deriving DecidableEq, Repr

/-- Per-job record of the concurrent system (pc plus the `ExecJob` state data). -/
structure JobRec where
  pc : Pc
  state : JState
  statechange : Bool
  events : JState → Bool

/--
A dependency edge for the wait protocol: job numbers plus the required
parent state, `ExecDependency.wait()` blocking on
`self.parent.events[self.state]`.
-/
structure WDep where
  parent : Nat
  child : Nat
  reqState : JState
  deriving DecidableEq, Repr

/-- The system state: one record per job number. -/
def Sys : Type := Nat → JobRec

/-- `ExecJob.parent_deps()`: inbound dependencies of `j`, in tree order. -/
def inDeps (deps : List WDep) (j : Nat) : List WDep :=
  deps.filter (fun d => d.child = j)

/-- Point update of one job's record. -/
def updJ (s : Sys) (j : Nat) (r : JobRec) : Sys :=
  fun k => if k = j then r else s k

/-- The `ExecJob.state` property setter at the `JobRec` level. -/
def JobRec.setState (r : JobRec) (v : JState) : JobRec :=
  if r.state = v then r
  else { r with state := v, statechange := true, events := setEv r.events v }

/--
`ExecDependency.wait()` is satisfied: the parent's one-shot event for
the dependency's required state has been set.
-/
@[reducible] def depOk (s : Sys) (d : WDep) : Prop :=
  (s d.parent).events d.reqState = true

/--
One interleaving step of the engine during a single `ExecTree.run`.
Each constructor is one atomic segment of `ExecJob.start` /
`ExecJob._run` between gevent suspension points (dependency wait,
resource wait, runner I/O), plus the external `ExecJob.cancel` applied
by tree cancellation.  Resource acquisition is abstracted to its two
outcomes, with `...Res` / `...NoRes` variants for a non-empty and an
empty `self.resources` (only the former flips the BLOCKED/IDLE states).
`ExecJob.reset` runs only between iterations, never during a run, so no
step clears an event flag.
-/
inductive Step (deps : List WDep) : Sys → Sys → Prop where
  | startShort (s : Sys) (j : Nat)
      (hpc : (s j).pc = .notStarted) (hst : (s j).state = .UNDEF)
      (horph : inDeps deps j = []) :
      Step deps s (updJ s j { s j with
        pc := .finished,
        events := setEv (setEv (s j).events .RUNNING) .SUCCESSFULL })
  | startSkip (s : Sys) (j : Nat)
      (hpc : (s j).pc = .notStarted) (hst : (s j).state = .SUCCESSFULL) :
      Step deps s (updJ s j { s j with pc := .finished })
  | startSpawn (s : Sys) (j : Nat)
      (hpc : (s j).pc = .notStarted)
      (hshort : ¬ ((s j).state = .UNDEF ∧ inDeps deps j = []))
      (hskip : (s j).state ≠ .SUCCESSFULL) :
      Step deps s (updJ s j { s j with pc := .waiting 0 })
  | waitDep (s : Sys) (j i : Nat)
      (hpc : (s j).pc = .waiting i) (hlt : i < (inDeps deps j).length)
      (hsat : depOk s ((inDeps deps j).get ⟨i, hlt⟩)) :
      Step deps s (updJ s j { s j with pc := .waiting (i + 1) })
  | checkUndef (s : Sys) (j : Nat)
      (hpc : (s j).pc = .waiting (inDeps deps j).length)
      (hst : (s j).state = .UNDEF) :
      Step deps s (updJ s j { s j with
        pc := .finished,
        events := setEv (setEv (s j).events .RUNNING) .SUCCESSFULL })
  | checkDone (s : Sys) (j : Nat)
      (hpc : (s j).pc = .waiting (inDeps deps j).length)
      (hst : (s j).state ≠ .UNDEF) (hdone : (s j).state ∈ DONE_STATES) :
      Step deps s (updJ s j { s j with pc := .finished })
  | checkAcquireRes (s : Sys) (j : Nat)
      (hpc : (s j).pc = .waiting (inDeps deps j).length)
      (hst : (s j).state ≠ .UNDEF) (hdone : (s j).state ∉ DONE_STATES) :
      Step deps s (updJ s j
        (JobRec.setState { s j with pc := .acquiring } .BLOCKED))
  | checkAcquireNoRes (s : Sys) (j : Nat)
      (hpc : (s j).pc = .waiting (inDeps deps j).length)
      (hst : (s j).state ≠ .UNDEF) (hdone : (s j).state ∉ DONE_STATES) :
      Step deps s (updJ s j { s j with pc := .acquiring })
  | acquireOkRes (s : Sys) (j : Nat)
      (hpc : (s j).pc = .acquiring) :
      Step deps s (updJ s j
        (JobRec.setState { s j with pc := .entering } .IDLE))
  | acquireOkNoRes (s : Sys) (j : Nat)
      (hpc : (s j).pc = .acquiring) :
      Step deps s (updJ s j { s j with pc := .entering })
  | acquireFail (s : Sys) (j : Nat)
      (hpc : (s j).pc = .acquiring) :
      Step deps s (updJ s j
        (JobRec.setState
          (JobRec.setState { s j with pc := .finished } .IDLE) .FAILED))
  | enterRunning (s : Sys) (j : Nat)
      (hpc : (s j).pc = .entering) :
      Step deps s (updJ s j
        (JobRec.setState { s j with pc := .running } .RUNNING))
  | finishRun (s : Sys) (j : Nat) (ok : Bool)
      (hpc : (s j).pc = .running) :
      Step deps s (updJ s j
        (JobRec.setState { s j with pc := .finished }
          (if ok then .SUCCESSFULL else .FAILED)))
  | cancelJob (s : Sys) (j : Nat)
      (hrun : (s j).state ≠ .RUNNING) (hdone : (s j).state ∉ DONE_STATES) :
      Step deps s (updJ s j (JobRec.setState (s j) .CANCELLED))

/-- Reachability under any interleaving of the run protocol. -/
def Reach (deps : List WDep) : Sys → Sys → Prop :=
  Relation.ReflTransGen (Step deps)

/--
Initial condition at the `ExecTree.run` call: no job greenlet has
started and no job is RUNNING.
-/
def InitOk (s : Sys) : Prop :=
  ∀ j, (s j).pc = .notStarted ∧ (s j).state ≠ .RUNNING

/-- The first `i` inbound dependencies of `j` have their wait satisfied. -/
def SatUpTo (deps : List WDep) (s : Sys) (j i : Nat) : Prop :=
  ∀ k (hk : k < (inDeps deps j).length), k < i →
    depOk s ((inDeps deps j).get ⟨k, hk⟩)

/-- Every inbound dependency of `j` has its wait satisfied. -/
def AllSat (deps : List WDep) (s : Sys) (j : Nat) : Prop :=
  ∀ d ∈ inDeps deps j, depOk s d

/--
Inductive invariant: a job at `waiting i` has passed the first `i`
waits; a job past `_parent_wait` (acquiring, entering, running) has
passed them all; a RUNNING job has passed them all.
-/
def RunInv (deps : List WDep) (s : Sys) : Prop :=
  ∀ j,
    (∀ i, (s j).pc = .waiting i → SatUpTo deps s j i) ∧
    ((s j).pc = .acquiring ∨ (s j).pc = .entering ∨ (s j).pc = .running →
      AllSat deps s j) ∧
    ((s j).state = .RUNNING → AllSat deps s j)

/-- Dependency list for the claim C1 witness: job 0 must succeed before job 1. -/
def c1deps : List WDep := [{ parent := 0, child := 1, reqState := .SUCCESSFULL }]

/-- Fresh job record: greenlet not started, job just constructed (IDLE). -/
def c1rec : JobRec :=
  { pc := .notStarted, state := .IDLE, statechange := true,
    events := setEv (fun _ => false) .IDLE }

/-- Initial system for the claim C1 witness. -/
def c1s0 : Sys := fun _ => c1rec

/-- Witness trace: job 0 enters `_parent_wait` (no inbound deps). -/
def c1s1 : Sys := updJ c1s0 0 { c1s0 0 with pc := .waiting 0 }

/-- Witness trace: job 0 enters `_acquire_resources` (no resources). -/
def c1s2 : Sys := updJ c1s1 0 { c1s1 0 with pc := .acquiring }

/-- Witness trace: job 0 acquisition returns true. -/
def c1s3 : Sys := updJ c1s2 0 { c1s2 0 with pc := .entering }

/-- Witness trace: job 0 sets `state = STATE_RUNNING`. -/
def c1s4 : Sys :=
  updJ c1s3 0 (JobRec.setState { c1s3 0 with pc := .running } .RUNNING)

/-- Witness trace: job 0's command exits 0, job 0 becomes SUCCESSFULL. -/
def c1s5 : Sys :=
  updJ c1s4 0 (JobRec.setState { c1s4 0 with pc := .finished } .SUCCESSFULL)

/-- Witness trace: job 1 enters `_parent_wait`. -/
def c1s6 : Sys := updJ c1s5 1 { c1s5 1 with pc := .waiting 0 }

/-- Witness trace: job 1's wait on job 0's SUCCESSFULL event returns. -/
def c1s7 : Sys := updJ c1s6 1 { c1s6 1 with pc := .waiting 1 }

/-- Witness trace: job 1 enters `_acquire_resources`. -/
def c1s8 : Sys := updJ c1s7 1 { c1s7 1 with pc := .acquiring }

/-- Witness trace: job 1 acquisition returns true. -/
def c1s9 : Sys := updJ c1s8 1 { c1s8 1 with pc := .entering }

/-- Witness trace final state: job 1 is RUNNING. -/
def c1sFinal : Sys :=
  updJ c1s9 1 (JobRec.setState { c1s9 1 with pc := .running } .RUNNING)

/- ==================== theorems ==================== -/

/-- Helper: one reserve or release call preserves the in-use bounds and the capacity. -/
theorem applyOp_inv (r : ExecResource) (op : ROp)
    (h0 : 0 ≤ r.used) (h1 : r.used ≤ max r.avail 0) :
    0 ≤ (r.applyOp op).used ∧ (r.applyOp op).used ≤ max r.avail 0 ∧
      (r.applyOp op).avail = r.avail := by
  cases op with
  | reserve =>
    simp only [ExecResource.applyOp, ExecResource.reserve]
    split
    · exact ⟨h0, h1, rfl⟩
    · split
      · refine ⟨?_, ?_, rfl⟩
        · show (0 : Int) ≤ r.used + 1
          omega
        · show r.used + 1 ≤ max r.avail 0
          omega
      · exact ⟨h0, h1, rfl⟩
  | release =>
    simp only [ExecResource.applyOp, ExecResource.release]
    split
    · refine ⟨?_, ?_, rfl⟩
      · show (0 : Int) ≤ max 0 (r.used - 1)
        omega
      · show max 0 (r.used - 1) ≤ max r.avail 0
        omega
    · exact ⟨h0, h1, rfl⟩

/--
Claim C3: for every `ExecResource` with integer capacity and every
sequence of reserve and release calls, the in-use counter stays within
`[0, max(capacity, 0)]`; `reserve` increments it only when it is below
the capacity (and leaves it untouched for negative capacity), and
`release` decrements it clamped at `0`.
-/
theorem c3_reserve_release_invariant (r : ExecResource) (ops : List ROp)
    (h0 : 0 ≤ r.used) (h1 : r.used ≤ max r.avail 0) :
    (0 ≤ (applyOps r ops).used ∧ (applyOps r ops).used ≤ max r.avail 0) ∧
    (r.avail < 0 → r.reserve = (true, r)) ∧
    (0 ≤ r.avail → r.used < r.avail →
      r.reserve = (true, { r with used := r.used + 1 })) ∧
    (0 ≤ r.avail → ¬ r.used < r.avail → r.reserve = (false, r)) ∧
    ((r.release).used = if 0 ≤ r.avail then max 0 (r.used - 1) else r.used) := by
  refine ⟨?_, ?_, ?_, ?_, ?_⟩
  · induction ops generalizing r with
    | nil => exact ⟨h0, h1⟩
    | cons op rest ih =>
      have hstep := applyOp_inv r op h0 h1
      have := ih (r.applyOp op) hstep.1 (hstep.2.2 ▸ hstep.2.1)
      simpa [applyOps, hstep.2.2] using this
  · intro hneg
    simp [ExecResource.reserve, hneg]
  · intro hpos hlt
    have hn : ¬ r.avail < 0 := by omega
    simp [ExecResource.reserve, hn, hlt]
  · intro hpos hge
    have hn : ¬ r.avail < 0 := by omega
    simp [ExecResource.reserve, hn, hge]
  · simp only [ExecResource.release]
    split
    · rename_i hp
      simp [hp]
    · rename_i hp
      simp [hp]

/-- Concrete resource used to witness claim C3. -/
def c3res : ExecResource :=
  { name := "db", avail := 1, used := 0, event := false, reserveTimeout := 60 }

/-- Concrete call sequence used to witness claim C3. -/
def c3ops : List ROp := [.reserve, .reserve, .release, .release, .reserve]

/-- Witness for claim C3 at a concrete resource and call sequence. -/
theorem c3_reserve_release_invariant_witness :
    0 ≤ (applyOps c3res c3ops).used ∧ (applyOps c3res c3ops).used ≤ max c3res.avail 0 :=
  (c3_reserve_release_invariant c3res c3ops (by decide) (by decide)).1

/--
Claim C6, counterexample: `advance()` on a tree whose iterator is
exhausted by the increment does not call `reset()` on the jobs.  The
job of `c6tree` keeps state SUCCESSFULL after `advance`, although
`reset()` on it would yield state RESET; the cursor is still
incremented and the flags still cleared.
-/
theorem c6_advance_counterexample :
    c6tree.advance.jobs.map ExecJob.state = [JState.SUCCESSFULL] ∧
    c6tree.jobs.map (fun j => (ExecJob.reset j).state) = [JState.RESET] ∧
    c6tree.advance.iterator = some { args := ["x"], run := 1 } ∧
    c6tree.advance.done_event = false ∧ c6tree.advance.cancelled = false := by
  decide

/--
Claim C6, amended: `advance()` clears the done-flag, clears the
cancelled flag and increments the iterator cursor when an iterator is
present, but calls `reset()` on every job only when no iterator is
present or the incremented cursor is still below the argument count;
when the increment exhausts the iterator the jobs are left unchanged.
-/
theorem c6_advance_amended (t : ATree) :
    t.advance.done_event = false ∧ t.advance.cancelled = false ∧
    t.advance.iterator = t.iterator.map (fun it => { it with run := it.run + 1 }) ∧
    t.advance.jobs = (match t.iterator with
      | none => t.jobs.map ExecJob.reset
      | some it =>
        if it.run + 1 < it.args.length then t.jobs.map ExecJob.reset
        else t.jobs) := by
  cases h : t.iterator with
  | none => simp [ATree.advance, h]
  | some it =>
    simp only [ATree.advance, h, ExecIter.increment, Option.map]
    by_cases hlt : it.run + 1 < it.args.length
    · simp [hlt]
    · simp [hlt]

/--
Claim C7: the current-argument query.  At `run = len(args)` with
non-empty `args` (the ordinary exhausted-cursor position, inside the
claim's range `[0, len(args)]`) the source evaluates `args[self.run]`
and raises `IndexError` (modelled as `none`) instead of returning
`args[min(run, len-1)]`; below the length and on the empty list it
behaves as claimed.
-/
theorem c7_argument_bug :
    ExecIter.argument { args := ["x"], run := 1 } = none ∧
    ExecIter.argument { args := ["x"], run := 0 } = some "x" ∧
    ExecIter.argument { args := [], run := 0 } = some "" ∧
    ExecIter.argument { args := ["x"], run := 2 } = some "x" :=
  ⟨rfl, rfl, rfl, rfl⟩

/--
Claim C8, counterexample: constructing an `ExecDependency` with
required-state `4` (STATE_CANCELLED, outside {SUCCESSFULL, FAILED})
succeeds instead of being rejected.
-/
theorem c8_state_counterexample :
    exceptOk (mkExecDependency "a" "b" 4) = true := rfl

/--
Claim C8, amended: `ExecDependency.__init__` accepts every state in
`ExecJob.STATES` (the integers 0..7), including SUCCESSFULL (2) and
FAILED (3), and rejects exactly the values outside that tuple.
-/
theorem c8_amended (p c : String) (s : Int) :
    exceptOk (mkExecDependency p c s) = decide (s ∈ pySTATES) ∧
    exceptOk (mkExecDependency p c 2) = true ∧
    exceptOk (mkExecDependency p c 3) = true := by
  refine ⟨?_, rfl, rfl⟩
  by_cases h : s ∈ pySTATES <;> simp [mkExecDependency, h, exceptOk]

/--
Claim C9: `ExecJob.cancel` returns false and leaves the job unchanged on
a RUNNING job, returns true and leaves the job unchanged on a DONE job
(SUCCESSFULL, FAILED, CANCELLED or UNDEF), and otherwise returns true
and moves the state to CANCELLED (setting the CANCELLED event, leaving
progress untouched).
-/
theorem c9_cancel (j : ExecJob) :
    (j.state = .RUNNING → j.cancel = (false, j)) ∧
    (j.state ∈ DONE_STATES → j.cancel = (true, j)) ∧
    (j.state ≠ .RUNNING → j.state ∉ DONE_STATES →
      j.cancel.1 = true ∧ j.cancel.2.state = .CANCELLED ∧
      j.cancel.2.events .CANCELLED = true ∧
      j.cancel.2.progress = j.progress) := by
  refine ⟨?_, ?_, ?_⟩
  · intro h
    simp [ExecJob.cancel, h]
  · intro h
    have hr : j.state ≠ .RUNNING := by
      intro he
      rw [he] at h
      simp [DONE_STATES] at h
    simp [ExecJob.cancel, hr, h]
  · intro h1 h2
    have hc : j.state ≠ .CANCELLED := by
      intro he
      rw [he] at h2
      simp [DONE_STATES] at h2
    simp [ExecJob.cancel, h1, h2, ExecJob.setState, hc, setEv]

/-- Witness for claim C9 on a freshly constructed (IDLE) job. -/
theorem c9_cancel_witness :
    initJob.cancel.1 = true ∧ initJob.cancel.2.state = .CANCELLED ∧
    initJob.cancel.2.events .CANCELLED = true ∧
    initJob.cancel.2.progress = initJob.progress :=
  (c9_cancel initJob).2.2 (by decide) (by decide)

/--
Claim C10: the `progress` setter ignores assignments outside `[0, 100]`,
so starting from a progress that is `-1` or within `[0, 100]`, any
sequence of assignments leaves the stored progress `-1` or in
`[0, 100]`; an out-of-range assignment leaves the job unchanged.
-/
theorem c10_progress (j : ExecJob) (vs : List Int)
    (h : j.progress = -1 ∨ (0 ≤ j.progress ∧ j.progress ≤ 100)) :
    ((applyProgressList j vs).progress = -1 ∨
      (0 ≤ (applyProgressList j vs).progress ∧
        (applyProgressList j vs).progress ≤ 100)) ∧
    (∀ v : Int, ¬ (0 ≤ v ∧ v ≤ 100) → j.setProgress v = j) := by
  constructor
  · induction vs generalizing j with
    | nil => exact h
    | cons v rest ih =>
      have hstep : (j.setProgress v).progress = -1 ∨
          (0 ≤ (j.setProgress v).progress ∧ (j.setProgress v).progress ≤ 100) := by
        unfold ExecJob.setProgress
        split
        · rename_i hv
          exact Or.inr hv
        · exact h
      simpa [applyProgressList] using ih (j.setProgress v) hstep
  · intro v hv
    simp [ExecJob.setProgress, hv]

/-- Witness for claim C10 on a fresh job and a mixed assignment sequence. -/
theorem c10_progress_witness :
    (applyProgressList initJob [200, 50, -3]).progress = -1 ∨
      (0 ≤ (applyProgressList initJob [200, 50, -3]).progress ∧
        (applyProgressList initJob [200, 50, -3]).progress ≤ 100) :=
  (c10_progress initJob [200, 50, -3] (Or.inl rfl)).1

/--
Claim C2 (code bug): `_acquire_resources` never clears `reserved`
between attempts, so on the second failed attempt it releases the
stale first-attempt entry of R1 a second time.  Starting from
`c2pool` (R1 in-use 1 — one unit held by another job — and R2 fully
busy so its reserve times out) with `max_attempts = 2`, the job gives
up (`false`, so `_run` marks it FAILED) but R1's in-use counter ends
at 0 instead of returning to its pre-acquisition value 1: the double
release dropped the other holder's reservation.
-/
theorem c2_stale_release_bug :
    (acquireResources [0, 1] c2pool 2).1 = false ∧
    (acquireResources [0, 1] c2pool 2).2.map ExecResource.used = [0, 1] ∧
    c2pool.map ExecResource.used = [1, 1] := by
  decide

/--
Claim C4, counterexample: on a tree with two defined jobs A and B and
the mutual dependencies A → B and B → A, each job has a defined
ancestor, so `stems()` is empty and `validate()` returns only the
"Tree is empty, has 0 stems" error — the cycle DFS never runs and no
"has cycles" error is produced, contradicting the claim that the
error list includes one.
-/
theorem c4_cycle_counterexample :
    GTree.validate c4tree 3 (fun _ => true) (fun _ => true) = [VError.emptyTree "t"] ∧
    (GTree.validate c4tree 3 (fun _ => true) (fun _ => true)).all
      (fun e => !e.isHasCycles) = true := by
  decide

/--
Claim C4, amended: for a tree containing two defined jobs A and B with
dependencies A → B and B → A, `validate()` returns a non-empty error
list, but the error is "Tree is empty, has 0 stems" (the cycle leaves
every job with a defined ancestor, so the stem set is empty) and no
"has cycles" error is included.
-/
theorem c4_cycle_amended :
    GTree.validate c4tree 3 (fun _ => true) (fun _ => true) ≠ [] ∧
    GTree.validate c4tree 3 (fun _ => true) (fun _ => true) = [VError.emptyTree "t"] := by
  decide

/--
Claim C5 (code bug): parse is not a left inverse of serialize on the
paragraph-6 attributes.  Serializing `c5tree` writes the resource
capacity as the string `"5"`; the resource parser stores the attribute
verbatim (only its absent-attribute default is the int `-1`), so the
re-parsed tree carries `avail = "5"` where the original had the int
`5`, and the two trees differ structurally on the resource `avail`
attribute.  Moreover any non-empty legend breaks the round trip
outright: the serializer emits a `legendItem` with the single attribute
`key = value` while the parser demands `name` and `value` attributes
and raises `KeyError`.
-/
theorem c5_roundtrip_bug :
    exceptOk (parseTree 2 (RTree.xml 2 c5tree)) = true ∧
    parsedResources (parseTree 2 (RTree.xml 2 c5tree)) =
      [{ uuid := "bb22", name := "res1", avail := PyVal.str "5" }] ∧
    c5tree.resources = [{ uuid := "bb22", name := "res1", avail := PyVal.int 5 }] ∧
    PyVal.str "5" ≠ PyVal.int 5 ∧
    exceptOk (parseTree 2 (RTree.xml 2 c5treeLegend)) = false := by
  refine ⟨rfl, rfl, rfl, by decide, rfl⟩

/-- Helper: `setEv` only sets flags, never clears them. -/
theorem setEv_mono (f : JState → Bool) (e x : JState) (h : f x = true) :
    setEv f e x = true := by
  unfold setEv
  split
  · rfl
  · exact h

/-- Helper: the `JobRec` state setter only adds event flags. -/
theorem jobRecSetState_events_mono (r : JobRec) (v e : JState)
    (h : r.events e = true) : (r.setState v).events e = true := by
  unfold JobRec.setState
  split
  · exact h
  · exact setEv_mono r.events v e h

/-- Helper: the `JobRec` state setter preserves the pc. -/
theorem jobRecSetState_pc (r : JobRec) (v : JState) :
    (r.setState v).pc = r.pc := by
  unfold JobRec.setState
  split <;> rfl

/-- Helper: the `JobRec` state setter stores the requested state. -/
theorem jobRecSetState_state (r : JobRec) (v : JState) :
    (r.setState v).state = v := by
  unfold JobRec.setState
  split
  · rename_i h
    exact h
  · rfl

/-- Helper: updating job `j0` leaves other jobs untouched. -/
theorem updJ_ne (s : Sys) (j0 : Nat) (r : JobRec) (j : Nat) (hj : j ≠ j0) :
    updJ s j0 r j = s j := by
  unfold updJ
  simp [hj]

/-- Helper: updating job `j0` stores the new record there. -/
theorem updJ_self (s : Sys) (j0 : Nat) (r : JobRec) : updJ s j0 r j0 = r := by
  unfold updJ
  simp

/-- Helper: a point update whose record only adds events preserves set flags. -/
theorem updJ_events_mono (s : Sys) (j0 : Nat) (r : JobRec)
    (hr : ∀ e, (s j0).events e = true → r.events e = true)
    (a : Nat) (e : JState) (he : (s a).events e = true) :
    (updJ s j0 r a).events e = true := by
  unfold updJ
  split
  · rename_i haj
    exact hr e (haj ▸ he)
  · exact he

/-- Helper: no step of the run protocol clears an event flag. -/
theorem step_events_mono {deps : List WDep} {s s2 : Sys} (h : Step deps s s2)
    (a : Nat) (e : JState) (he : (s a).events e = true) :
    (s2 a).events e = true := by
  cases h with
  | startShort j hpc hst horph =>
    refine updJ_events_mono _ _ _ ?_ a e he
    intro e2 he2
    exact setEv_mono _ _ _ (setEv_mono _ _ _ he2)
  | startSkip j hpc hst =>
    refine updJ_events_mono _ _ _ ?_ a e he
    intro e2 he2
    exact he2
  | startSpawn j hpc hshort hskip =>
    refine updJ_events_mono _ _ _ ?_ a e he
    intro e2 he2
    exact he2
  | waitDep j i hpc hlt hsat =>
    refine updJ_events_mono _ _ _ ?_ a e he
    intro e2 he2
    exact he2
  | checkUndef j hpc hst =>
    refine updJ_events_mono _ _ _ ?_ a e he
    intro e2 he2
    exact setEv_mono _ _ _ (setEv_mono _ _ _ he2)
  | checkDone j hpc hst hdone =>
    refine updJ_events_mono _ _ _ ?_ a e he
    intro e2 he2
    exact he2
  | checkAcquireRes j hpc hst hdone =>
    refine updJ_events_mono _ _ _ ?_ a e he
    intro e2 he2
    exact jobRecSetState_events_mono _ _ _ he2
  | checkAcquireNoRes j hpc hst hdone =>
    refine updJ_events_mono _ _ _ ?_ a e he
    intro e2 he2
    exact he2
  | acquireOkRes j hpc =>
    refine updJ_events_mono _ _ _ ?_ a e he
    intro e2 he2
    exact jobRecSetState_events_mono _ _ _ he2
  | acquireOkNoRes j hpc =>
    refine updJ_events_mono _ _ _ ?_ a e he
    intro e2 he2
    exact he2
  | acquireFail j hpc =>
    refine updJ_events_mono _ _ _ ?_ a e he
    intro e2 he2
    exact jobRecSetState_events_mono _ _ _ (jobRecSetState_events_mono _ _ _ he2)
  | enterRunning j hpc =>
    refine updJ_events_mono _ _ _ ?_ a e he
    intro e2 he2
    exact jobRecSetState_events_mono _ _ _ he2
  | finishRun j ok hpc =>
    refine updJ_events_mono _ _ _ ?_ a e he
    intro e2 he2
    exact jobRecSetState_events_mono _ _ _ he2
  | cancelJob j hrun hdone =>
    refine updJ_events_mono _ _ _ ?_ a e he
    intro e2 he2
    exact jobRecSetState_events_mono _ _ _ he2

/-- Helper: a satisfied dependency wait stays satisfied. -/
theorem depOk_mono {deps : List WDep} {s s2 : Sys} (h : Step deps s s2)
    (d : WDep) (hd : depOk s d) : depOk s2 d :=
  step_events_mono h d.parent d.reqState hd

/-- Helper: `SatUpTo` is monotone along steps. -/
theorem satUpTo_mono {deps : List WDep} {s s2 : Sys} (h : Step deps s s2)
    (j i : Nat) (hs : SatUpTo deps s j i) : SatUpTo deps s2 j i :=
  fun k hk hki => depOk_mono h _ (hs k hk hki)

/-- Helper: `AllSat` is monotone along steps. -/
theorem allSat_mono {deps : List WDep} {s s2 : Sys} (h : Step deps s s2)
    (j : Nat) (hs : AllSat deps s j) : AllSat deps s2 j :=
  fun d hd => depOk_mono h d (hs d hd)

/-- Helper: all waits up to the dependency count mean every wait passed. -/
theorem satUpTo_full {deps : List WDep} {s : Sys} {j : Nat}
    (hs : SatUpTo deps s j (inDeps deps j).length) : AllSat deps s j := by
  intro d hd
  obtain ⟨n, hn⟩ := List.get_of_mem hd
  subst hn
  exact hs n.1 n.2 n.2

/-- Helper: the invariant holds initially. -/
theorem runInv_init (deps : List WDep) (s : Sys) (h : InitOk s) :
    RunInv deps s := by
  intro j
  refine ⟨?_, ?_, ?_⟩
  · intro i hpc
    rw [(h j).1] at hpc
    cases hpc
  · intro hpc
    rcases hpc with h1 | h1 | h1 <;> (rw [(h j).1] at h1; cases h1)
  · intro hst
    exact absurd hst (h j).2

/-- Helper: transfer the invariant across a point update. -/
theorem runInv_upd {deps : List WDep} {s : Sys} (j0 : Nat) (r : JobRec)
    (h : Step deps s (updJ s j0 r)) (hinv : RunInv deps s)
    (h1 : ∀ i, r.pc = .waiting i → SatUpTo deps (updJ s j0 r) j0 i)
    (h2 : r.pc = .acquiring ∨ r.pc = .entering ∨ r.pc = .running →
      AllSat deps (updJ s j0 r) j0)
    (h3 : r.state = .RUNNING → AllSat deps (updJ s j0 r) j0) :
    RunInv deps (updJ s j0 r) := by
  intro j
  by_cases hj : j = j0
  · subst hj
    rw [updJ_self]
    exact ⟨h1, h2, h3⟩
  · rw [updJ_ne s j0 r j hj]
    exact ⟨fun i hpc => satUpTo_mono h j i ((hinv j).1 i hpc),
           fun hpc => allSat_mono h j ((hinv j).2.1 hpc),
           fun hst => allSat_mono h j ((hinv j).2.2 hst)⟩

/-- Helper: every step of the run protocol preserves the invariant. -/
theorem runInv_step {deps : List WDep} {s s2 : Sys} (hinv : RunInv deps s)
    (h : Step deps s s2) : RunInv deps s2 := by
  cases h with
  | startShort j hpc hst horph =>
    refine runInv_upd j _ (Step.startShort s j hpc hst horph) hinv ?_ ?_ ?_
    · intro i hpci
      have hx : Pc.finished = Pc.waiting i := hpci
      cases hx
    · intro hx
      rcases hx with h1 | h1 | h1 <;> (
        have hy : Pc.finished = _ := h1
        cases hy)
    · intro hsti
      have hx : (s j).state = .RUNNING := hsti
      rw [hst] at hx
      cases hx
  | startSkip j hpc hst =>
    refine runInv_upd j _ (Step.startSkip s j hpc hst) hinv ?_ ?_ ?_
    · intro i hpci
      have hx : Pc.finished = Pc.waiting i := hpci
      cases hx
    · intro hx
      rcases hx with h1 | h1 | h1 <;> (
        have hy : Pc.finished = _ := h1
        cases hy)
    · intro hsti
      have hx : (s j).state = .RUNNING := hsti
      rw [hst] at hx
      cases hx
  | startSpawn j hpc hshort hskip =>
    have hstep := @Step.startSpawn deps s j hpc hshort hskip
    refine runInv_upd j _ hstep hinv ?_ ?_ ?_
    · intro i hpci
      have hx : Pc.waiting 0 = Pc.waiting i := hpci
      injection hx with hi
      subst hi
      intro k hk hki
      exact absurd hki (by omega)
    · intro hx
      rcases hx with h1 | h1 | h1 <;> (
        have hy : Pc.waiting 0 = _ := h1
        cases hy)
    · intro hsti
      have hx : (s j).state = .RUNNING := hsti
      exact allSat_mono hstep j ((hinv j).2.2 hx)
  | waitDep j i hpc hlt hsat =>
    have hstep := @Step.waitDep deps s j i hpc hlt hsat
    refine runInv_upd j _ hstep hinv ?_ ?_ ?_
    · intro i2 hpci
      have hx : Pc.waiting (i + 1) = Pc.waiting i2 := hpci
      injection hx with hi
      subst hi
      intro k hk hki
      rcases Nat.lt_succ_iff_lt_or_eq.mp hki with hk2 | hk2
      · exact depOk_mono hstep _ ((hinv j).1 i hpc k hk hk2)
      · subst hk2
        exact depOk_mono hstep _ hsat
    · intro hx
      rcases hx with h1 | h1 | h1 <;> (
        have hy : Pc.waiting (i + 1) = _ := h1
        cases hy)
    · intro hsti
      have hx : (s j).state = .RUNNING := hsti
      exact allSat_mono hstep j ((hinv j).2.2 hx)
  | checkUndef j hpc hst =>
    refine runInv_upd j _ (Step.checkUndef s j hpc hst) hinv ?_ ?_ ?_
    · intro i hpci
      have hx : Pc.finished = Pc.waiting i := hpci
      cases hx
    · intro hx
      rcases hx with h1 | h1 | h1 <;> (
        have hy : Pc.finished = _ := h1
        cases hy)
    · intro hsti
      have hx : (s j).state = .RUNNING := hsti
      rw [hst] at hx
      cases hx
  | checkDone j hpc hst hdone =>
    refine runInv_upd j _ (Step.checkDone s j hpc hst hdone) hinv ?_ ?_ ?_
    · intro i hpci
      have hx : Pc.finished = Pc.waiting i := hpci
      cases hx
    · intro hx
      rcases hx with h1 | h1 | h1 <;> (
        have hy : Pc.finished = _ := h1
        cases hy)
    · intro hsti
      have hx : (s j).state = .RUNNING := hsti
      rw [hx] at hdone
      exact absurd hdone (by decide)
  | checkAcquireRes j hpc hst hdone =>
    have hstep := @Step.checkAcquireRes deps s j hpc hst hdone
    refine runInv_upd j _ hstep hinv ?_ ?_ ?_
    · intro i hpci
      rw [jobRecSetState_pc] at hpci
      have hx : Pc.acquiring = Pc.waiting i := hpci
      cases hx
    · intro hx
      exact allSat_mono hstep j (satUpTo_full ((hinv j).1 _ hpc))
    · intro hsti
      rw [jobRecSetState_state] at hsti
      cases hsti
  | checkAcquireNoRes j hpc hst hdone =>
    have hstep := @Step.checkAcquireNoRes deps s j hpc hst hdone
    refine runInv_upd j _ hstep hinv ?_ ?_ ?_
    · intro i hpci
      have hx : Pc.acquiring = Pc.waiting i := hpci
      cases hx
    · intro hx
      exact allSat_mono hstep j (satUpTo_full ((hinv j).1 _ hpc))
    · intro hsti
      have hx : (s j).state = .RUNNING := hsti
      exact allSat_mono hstep j ((hinv j).2.2 hx)
  | acquireOkRes j hpc =>
    have hstep := @Step.acquireOkRes deps s j hpc
    refine runInv_upd j _ hstep hinv ?_ ?_ ?_
    · intro i hpci
      rw [jobRecSetState_pc] at hpci
      have hx : Pc.entering = Pc.waiting i := hpci
      cases hx
    · intro hx
      exact allSat_mono hstep j ((hinv j).2.1 (Or.inl hpc))
    · intro hsti
      rw [jobRecSetState_state] at hsti
      cases hsti
  | acquireOkNoRes j hpc =>
    have hstep := @Step.acquireOkNoRes deps s j hpc
    refine runInv_upd j _ hstep hinv ?_ ?_ ?_
    · intro i hpci
      have hx : Pc.entering = Pc.waiting i := hpci
      cases hx
    · intro hx
      exact allSat_mono hstep j ((hinv j).2.1 (Or.inl hpc))
    · intro hsti
      have hx : (s j).state = .RUNNING := hsti
      exact allSat_mono hstep j ((hinv j).2.2 hx)
  | acquireFail j hpc =>
    refine runInv_upd j _ (Step.acquireFail s j hpc) hinv ?_ ?_ ?_
    · intro i hpci
      rw [jobRecSetState_pc, jobRecSetState_pc] at hpci
      have hx : Pc.finished = Pc.waiting i := hpci
      cases hx
    · intro hx
      rcases hx with h1 | h1 | h1 <;> (
        rw [jobRecSetState_pc, jobRecSetState_pc] at h1
        have hy : Pc.finished = _ := h1
        cases hy)
    · intro hsti
      rw [jobRecSetState_state] at hsti
      cases hsti
  | enterRunning j hpc =>
    have hstep := @Step.enterRunning deps s j hpc
    refine runInv_upd j _ hstep hinv ?_ ?_ ?_
    · intro i hpci
      rw [jobRecSetState_pc] at hpci
      have hx : Pc.running = Pc.waiting i := hpci
      cases hx
    · intro hx
      exact allSat_mono hstep j ((hinv j).2.1 (Or.inr (Or.inl hpc)))
    · intro hsti
      exact allSat_mono hstep j ((hinv j).2.1 (Or.inr (Or.inl hpc)))
  | finishRun j ok hpc =>
    refine runInv_upd j _ (Step.finishRun s j ok hpc) hinv ?_ ?_ ?_
    · intro i hpci
      rw [jobRecSetState_pc] at hpci
      have hx : Pc.finished = Pc.waiting i := hpci
      cases hx
    · intro hx
      rcases hx with h1 | h1 | h1 <;> (
        rw [jobRecSetState_pc] at h1
        have hy : Pc.finished = _ := h1
        cases hy)
    · intro hsti
      rw [jobRecSetState_state] at hsti
      rcases ok with _ | _ <;> simp at hsti
  | cancelJob j hrun hdone =>
    have hstep := @Step.cancelJob deps s j hrun hdone
    refine runInv_upd j _ hstep hinv ?_ ?_ ?_
    · intro i hpci
      rw [jobRecSetState_pc] at hpci
      exact satUpTo_mono hstep j i ((hinv j).1 i hpci)
    · intro hx
      rw [jobRecSetState_pc] at hx
      exact allSat_mono hstep j ((hinv j).2.1 hx)
    · intro hsti
      rw [jobRecSetState_state] at hsti
      cases hsti

/-- Helper: the invariant holds in every reachable state. -/
theorem runInv_reach {deps : List WDep} {s0 s : Sys} (h0 : InitOk s0)
    (h : Reach deps s0 s) : RunInv deps s := by
  have h2 : Relation.ReflTransGen (Step deps) s0 s := h
  clear h
  induction h2 with
  | refl => exact runInv_init deps s0 h0
  | tail hab hbc ih => exact runInv_step ih hbc

/--
Claim C1: during a single tree run, a job with at least one inbound
dependency is in the RUNNING state only after, for each inbound
dependency `(parent, child, required-state)`, the parent's one-shot
event for the required state has been set.  No step of a run clears an
event, so "has been set earlier" coincides with "is set now".
-/
theorem c1_running_after_deps (deps : List WDep) (s0 s : Sys) (j : Nat)
    (hinit : InitOk s0) (hreach : Reach deps s0 s)
    (_hne : inDeps deps j ≠ []) (hrun : (s j).state = .RUNNING) :
    ∀ d ∈ inDeps deps j, (s d.parent).events d.reqState = true :=
  fun d hd => (runInv_reach hinit hreach j).2.2 hrun d hd

/-- Helper: the concrete initial system satisfies the initial condition. -/
theorem c1_initok : InitOk c1s0 :=
  fun j => ⟨rfl, by simp [c1s0, c1rec]⟩

/-- Helper: the witness trace is a run of the protocol. -/
theorem c1_reach_final : Reach c1deps c1s0 c1sFinal := by
  have t1 : Step c1deps c1s0 c1s1 :=
    Step.startSpawn c1s0 0 (by decide) (by decide) (by decide)
  have t2 : Step c1deps c1s1 c1s2 :=
    Step.checkAcquireNoRes c1s1 0 (by decide) (by decide) (by decide)
  have t3 : Step c1deps c1s2 c1s3 :=
    Step.acquireOkNoRes c1s2 0 (by decide)
  have t4 : Step c1deps c1s3 c1s4 :=
    Step.enterRunning c1s3 0 (by decide)
  have t5 : Step c1deps c1s4 c1s5 :=
    Step.finishRun c1s4 0 true (by decide)
  have t6 : Step c1deps c1s5 c1s6 :=
    Step.startSpawn c1s5 1 (by decide) (by decide) (by decide)
  have t7 : Step c1deps c1s6 c1s7 :=
    Step.waitDep c1s6 1 0 (by decide) (by decide) (by decide)
  have t8 : Step c1deps c1s7 c1s8 :=
    Step.checkAcquireNoRes c1s7 1 (by decide) (by decide) (by decide)
  have t9 : Step c1deps c1s8 c1s9 :=
    Step.acquireOkNoRes c1s8 1 (by decide)
  have t10 : Step c1deps c1s9 c1sFinal :=
    Step.enterRunning c1s9 1 (by decide)
  exact Relation.ReflTransGen.tail (Relation.ReflTransGen.tail
    (Relation.ReflTransGen.tail (Relation.ReflTransGen.tail
      (Relation.ReflTransGen.tail (Relation.ReflTransGen.tail
        (Relation.ReflTransGen.tail (Relation.ReflTransGen.tail
          (Relation.ReflTransGen.tail (Relation.ReflTransGen.single t1)
            t2) t3) t4) t5) t6) t7) t8) t9) t10

/--
Witness for claim C1: in the final state of the concrete two-job trace
job 1 is RUNNING, and the theorem yields that job 0's SUCCESSFULL event
(the required state of the only inbound dependency of job 1) is set.
-/
theorem c1_running_after_deps_witness :
    (c1sFinal 0).events JState.SUCCESSFULL = true :=
  c1_running_after_deps c1deps c1s0 c1sFinal 1 c1_initok c1_reach_final
    (by decide) (by decide)
    { parent := 0, child := 1, reqState := .SUCCESSFULL } (by decide)
